import Mathlib

set_option maxRecDepth 40000

/-!
Verification of the core of `src/app.py`: a minimal blockchain service with
wallets, transactions, blocks, a SHA-256 proof-of-work, and a chain audit.

The Python code is shallowly embedded:
* Python `int` becomes `Int` (`Nat` for loop counters that only count up from 0);
* Python `str` becomes `String`; `str.encode()` (UTF-8) becomes `strBytes`;
* `hashlib.sha256(...).hexdigest()` becomes `sha256HexStr`, a full executable
  SHA-256 implementation over byte lists;
* Python exceptions become explicit `PyErr` outcomes: code that can raise
  returns `Except PyErr _` or a state paired with `Option PyErr`;
* the mutable module globals `WALLETS`, `CHAIN`, `BLOCK` become an explicit
  `ServerState` threaded through the `mine` endpoint.
-/

/-! ## SHA-256 (executable, over byte lists) -/

/-- Truncation to a 32-bit word. -/
def w32 (n : Nat) : Nat := n % 4294967296

/-- Right rotation of a 32-bit word (argument assumed `< 2^32`). -/
def rotr (n x : Nat) : Nat := w32 ((x >>> n) ||| (x <<< (32 - n)))

/-- The eight working variables of the SHA-256 compression function. -/
structure Sha256State where
  a : Nat
  b : Nat
  c : Nat
  d : Nat
  e : Nat
  f : Nat
  g : Nat
  h : Nat

/-- SHA-256 round constants. -/
def sha256K : List Nat :=
  [1116352408, 1899447441, 3049323471, 3921009573, 961987163, 1508970993,
   2453635748, 2870763221, 3624381080, 310598401, 607225278, 1426881987,
   1925078388, 2162078206, 2614888103, 3248222580, 3835390401, 4022224774,
   264347078, 604807628, 770255983, 1249150122, 1555081692, 1996064986,
   2554220882, 2821834349, 2952996808, 3210313671, 3336571891, 3584528711,
   113926993, 338241895, 666307205, 773529912, 1294757372, 1396182291,
   1695183700, 1986661051, 2177026350, 2456956037, 2730485921, 2820302411,
   3259730800, 3345764771, 3516065817, 3600352804, 4094571909, 275423344,
   430227734, 506948616, 659060556, 883997877, 958139571, 1322822218,
   1537002063, 1747873779, 1955562222, 2024104815, 2227730452, 2361852424,
   2428436474, 2756734187, 3204031479, 3329325298]

/-- SHA-256 initial hash value. -/
def sha256InitState : Sha256State :=
  ⟨1779033703, 3144134277, 1013904242, 2773480762,
   1359893119, 2600822924, 528734635, 1541459225⟩

/-- One SHA-256 compression round. -/
def sha256Round (k w : Nat) (s : Sha256State) : Sha256State :=
  let bigS1 := rotr 6 s.e ^^^ rotr 11 s.e ^^^ rotr 25 s.e
  let ch := (s.e &&& s.f) ^^^ ((s.e ^^^ 4294967295) &&& s.g)
  let temp1 := w32 (s.h + bigS1 + ch + k + w)
  let bigS0 := rotr 2 s.a ^^^ rotr 13 s.a ^^^ rotr 22 s.a
  let maj := (s.a &&& s.b) ^^^ (s.a &&& s.c) ^^^ (s.b &&& s.c)
  let temp2 := w32 (bigS0 + maj)
  ⟨w32 (temp1 + temp2), s.a, s.b, s.c, w32 (s.d + temp1), s.e, s.f, s.g⟩

/-- Run the 64 compression rounds over the round constants and schedule. -/
def sha256Compress : List Nat → List Nat → Sha256State → Sha256State
  | k :: ks, w :: ws, s => sha256Compress ks ws (sha256Round k w s)
  | _, _, s => s

/-- Extend a 16-word block with `n` further schedule words. -/
def sha256ExtendLoop : Nat → List Nat → List Nat
  | 0, ws => ws
  | n + 1, ws =>
    let len := ws.length
    let w16 := ws.getD (len - 16) 0
    let w15 := ws.getD (len - 15) 0
    let w7 := ws.getD (len - 7) 0
    let w2 := ws.getD (len - 2) 0
    let s0 := rotr 7 w15 ^^^ rotr 18 w15 ^^^ (w15 >>> 3)
    let s1 := rotr 17 w2 ^^^ rotr 19 w2 ^^^ (w2 >>> 10)
    sha256ExtendLoop n (ws ++ [w32 (w16 + s0 + w7 + s1)])

/-- The 64-word message schedule of one block. -/
def sha256Schedule (block : List Nat) : List Nat := sha256ExtendLoop 48 block

/-- Process one 16-word block. -/
def sha256ProcessBlock (s : Sha256State) (block : List Nat) : Sha256State :=
  let t := sha256Compress sha256K (sha256Schedule block) s
  ⟨w32 (s.a + t.a), w32 (s.b + t.b), w32 (s.c + t.c), w32 (s.d + t.d),
   w32 (s.e + t.e), w32 (s.f + t.f), w32 (s.g + t.g), w32 (s.h + t.h)⟩

/-- Big-endian bytes of a value, fixed width `n`. -/
def beBytes : Nat → Nat → List Nat
  | 0, _ => []
  | n + 1, v => beBytes n (v / 256) ++ [v % 256]

/-- SHA-256 padding: append `0x80`, zeros, and the 64-bit bit length. -/
def sha256Pad (msg : List Nat) : List Nat :=
  let len := msg.length
  msg ++ [128] ++ List.replicate ((119 - len % 64) % 64) 0 ++ beBytes 8 (8 * len)

/-- Pack big-endian groups of four bytes into 32-bit words. -/
def bytesToWords : List Nat → List Nat
  | b0 :: b1 :: b2 :: b3 :: rest =>
    (((b0 * 256 + b1) * 256 + b2) * 256 + b3) :: bytesToWords rest
  | _ => []

/-- Split a padded byte list into 16-word blocks (fuel = byte count). -/
def sha256BlocksLoop : Nat → List Nat → List (List Nat)
  | 0, _ => []
  | _, [] => []
  | n + 1, bytes => bytesToWords (bytes.take 64) :: sha256BlocksLoop n (bytes.drop 64)

/-- All 16-word blocks of a padded message. -/
def sha256Blocks (bytes : List Nat) : List (List Nat) :=
  sha256BlocksLoop bytes.length bytes

/-- The final SHA-256 state of a byte message. -/
def sha256StateOf (msg : List Nat) : Sha256State :=
  (sha256Blocks (sha256Pad msg)).foldl sha256ProcessBlock sha256InitState

/-- Lowercase hexadecimal digit. -/
def hexChar (n : Nat) : Char :=
  if n < 10 then Char.ofNat (48 + n) else Char.ofNat (87 + n)

/-- Eight lowercase hex characters of a 32-bit word, most significant first. -/
def wordHexChars (n : Nat) : List Char :=
  [hexChar ((n >>> 28) &&& 15), hexChar ((n >>> 24) &&& 15),
   hexChar ((n >>> 20) &&& 15), hexChar ((n >>> 16) &&& 15),
   hexChar ((n >>> 12) &&& 15), hexChar ((n >>> 8) &&& 15),
   hexChar ((n >>> 4) &&& 15), hexChar (n &&& 15)]

/-- The 64 lowercase hex characters of the SHA-256 digest of a byte message. -/
def sha256HexChars (msg : List Nat) : List Char :=
  let s := sha256StateOf msg
  wordHexChars s.a ++ wordHexChars s.b ++ wordHexChars s.c ++ wordHexChars s.d ++
  wordHexChars s.e ++ wordHexChars s.f ++ wordHexChars s.g ++ wordHexChars s.h

/-- UTF-8 encoding of one character, as `str.encode()` does per code point. -/
def charUtf8 (c : Char) : List Nat :=
  let n := c.toNat
  if n < 128 then [n]
  else if n < 2048 then [192 + n / 64, 128 + n % 64]
  else if n < 65536 then [224 + n / 4096, 128 + (n / 64) % 64, 128 + n % 64]
  else [240 + n / 262144, 128 + (n / 4096) % 64, 128 + (n / 64) % 64, 128 + n % 64]

/-- UTF-8 bytes of a string: the model of Python `str.encode()`. -/
def strBytes (s : String) : List Nat :=
  s.data.foldr (fun c acc => charUtf8 c ++ acc) []

/-- Model of `hashlib.sha256(s.encode()).hexdigest()`. -/
def sha256HexStr (s : String) : String := ⟨sha256HexChars (strBytes s)⟩

/-! ## Python value rendering -/

/-- Python `str(i)` for an `int`: decimal digits with a leading `-` sign. -/
def pyIntStr (i : Int) : String :=
  if i < 0 then "-" ++ Nat.repr (-i).toNat else Nat.repr i.toNat

/-- Python f-string rendering of an `Optional[int]`: `None` renders as `"None"`. -/
def pyOptIntStr : Option Int → String
  | some i => pyIntStr i
  | none => "None"

/-! ## Python exceptions and list indexing -/

/-- The Python exceptions (and HTTP error responses) the embedded code can
signal. `lookupError` is never produced by the code; it exists so that claims
about `LookupError` can be stated and compared with what the code does. -/
inductive PyErr where
  | attributeError
  | indexError
  | lookupError
  | http (status : Nat) (detail : String)
deriving DecidableEq, Repr

/-- Python list indexing `l[i]`: negative indices count from the end, and an
index outside the list raises `IndexError`. -/
def pyIndex {α : Type} (l : List α) (i : Int) : Except PyErr α :=
  let j : Int := if i < 0 then (l.length : Int) + i else i
  if j < 0 then .error .indexError
  else
    match l.get? j.toNat with
    | some a => .ok a
    | none => .error .indexError

/-! ## Data model: wallets, transactions, blocks, chain (`src/app.py`) -/

/-- `class Wallet(BaseModel)`: `index: str`, `value: int`. -/
structure Wallet where
  index : String
  value : Int
deriving DecidableEq, Repr

/-- `class Wallets(BaseModel)`: `wallets: Dict[str, Wallet]`, `length: int`.
The dict is modelled as an insertion-ordered list of wallets with distinct
`index` fields (lookups take the first match, exactly what a dict with unique
keys yields). -/
structure Wallets where
  wallets : List Wallet
  length : Int
deriving DecidableEq, Repr

/-- `Wallets.find_by_index`: `self.wallets.get(wallet_index)`. -/
def Wallets.find_by_index (ws : Wallets) (wallet_index : String) : Option Wallet :=
  ws.wallets.find? (fun w => w.index == wallet_index)

/-- `Wallets.add_wallet`: return early when the id is already present (a
present `Wallet` object is always truthy), otherwise insert and bump
`length`. -/
def Wallets.add_wallet (ws : Wallets) (w : Wallet) : Wallets :=
  match ws.find_by_index w.index with
  | some _ => ws
  | none => { wallets := ws.wallets ++ [w], length := ws.length + 1 }

/-- In-place mutation of the first wallet whose `index` matches `key`
(Python mutates the single dict entry's `Wallet` object). -/
def updateFirst (l : List Wallet) (key : String) (f : Int → Int) : List Wallet :=
  match l with
  | [] => []
  | w :: rest =>
    if w.index == key then { w with value := f w.value } :: rest
    else w :: updateFirst rest key f

/-- `class Transaction(BaseModel)`: `amount: int = 0`, `index: int`,
`recipient: str`, `sender: str`. -/
structure Transaction where
  amount : Int
  index : Int
  recipient : String
  sender : String
deriving DecidableEq, Repr

/-- `Transaction.commit`: look up both wallets, then run
`sender_wallet.value -= amount` and `recipient_wallet.value += amount`.
A missing sender raises `AttributeError` (dereference of `None`) before any
mutation; a missing recipient raises it after the sender was already debited.
Returns the ledger state together with the exception, if any. -/
def Transaction.commit (t : Transaction) (ws : Wallets) : Wallets × Option PyErr :=
  match ws.find_by_index t.sender, ws.find_by_index t.recipient with
  | none, _ => (ws, some .attributeError)
  | some _, none =>
    ({ ws with wallets := updateFirst ws.wallets t.sender (fun v => v - t.amount) },
     some .attributeError)
  | some _, some _ =>
    let debited := updateFirst ws.wallets t.sender (fun v => v - t.amount)
    ({ ws with wallets := updateFirst debited t.recipient (fun v => v + t.amount) },
     none)

/-- `class Block(BaseModel)`. `timestamp: datetime` is carried in its
pydantic-serialized ISO text form, which is all the code ever consumes. -/
structure Block where
  index : Int
  length : Int
  previous_hash : String
  proof : Option Int
  timestamp : String
  transactions : List Transaction
deriving DecidableEq, Repr

/-! JSON serialization as `pydantic.BaseModel.json(sort_keys=True)` performs
it: `json.dumps` of the field dict with keys sorted, default separators
`", "` and `": "`, `ensure_ascii=True`. -/

/-- Four lowercase hex characters of a value below `2^16`. -/
def hexChar4 (n : Nat) : List Char :=
  [hexChar ((n >>> 12) &&& 15), hexChar ((n >>> 8) &&& 15),
   hexChar ((n >>> 4) &&& 15), hexChar (n &&& 15)]

/-- `json.dumps` escaping of one character (`ensure_ascii=True`). -/
def jsonEscapeChar (c : Char) : List Char :=
  if c = '"' then ['\\', '"']
  else if c = '\\' then ['\\', '\\']
  else if c = '\n' then ['\\', 'n']
  else if c = '\t' then ['\\', 't']
  else if c = '\r' then ['\\', 'r']
  else if c.toNat = 8 then ['\\', 'b']
  else if c.toNat = 12 then ['\\', 'f']
  else if c.toNat < 32 ∨ c.toNat > 126 then
    if c.toNat < 65536 then '\\' :: 'u' :: hexChar4 c.toNat
    else
      let v := c.toNat - 65536
      ('\\' :: 'u' :: hexChar4 (55296 + v / 1024)) ++
      ('\\' :: 'u' :: hexChar4 (56320 + v % 1024))
  else [c]

/-- A JSON string literal. -/
def jsonString (s : String) : String :=
  "\"" ++ String.mk (s.data.foldr (fun c acc => jsonEscapeChar c ++ acc) []) ++ "\""

/-- JSON for an `Optional[int]` field (`null` for `None`). -/
def jsonOptInt : Option Int → String
  | some i => pyIntStr i
  | none => "null"

/-- Join with a separator. -/
def joinStrings (sep : String) : List String → String
  | [] => ""
  | [s] => s
  | s :: rest => s ++ sep ++ joinStrings sep rest

/-- JSON of one transaction, keys sorted: amount, index, recipient, sender. -/
def transactionJson (t : Transaction) : String :=
  "\x7b\"amount\": " ++ pyIntStr t.amount ++
  ", \"index\": " ++ pyIntStr t.index ++
  ", \"recipient\": " ++ jsonString t.recipient ++
  ", \"sender\": " ++ jsonString t.sender ++ "\x7d"

/-- JSON of one block, keys sorted: index, length, previous_hash, proof,
timestamp, transactions. -/
def blockJson (b : Block) : String :=
  "\x7b\"index\": " ++ pyIntStr b.index ++
  ", \"length\": " ++ pyIntStr b.length ++
  ", \"previous_hash\": " ++ jsonString b.previous_hash ++
  ", \"proof\": " ++ jsonOptInt b.proof ++
  ", \"timestamp\": " ++ jsonString b.timestamp ++
  ", \"transactions\": [" ++ joinStrings ", " (b.transactions.map transactionJson) ++
  "]\x7d"

/-- `Block.hash`: `hashlib.sha256(self.json(sort_keys=True).encode()).hexdigest()`. -/
def Block.hash (b : Block) : String := sha256HexStr (blockJson b)

/-- `Block.close`: commit each transaction in order; an exception aborts the
loop and propagates, keeping the mutations made so far. -/
def closeLoop (ws : Wallets) : List Transaction → Wallets × Option PyErr
  | [] => (ws, none)
  | t :: rest =>
    match t.commit ws with
    | (ws2, some e) => (ws2, some e)
    | (ws2, none) => closeLoop ws2 rest

/-- `Block.close(self)`. -/
def Block.close (b : Block) (ws : Wallets) : Wallets × Option PyErr :=
  closeLoop ws b.transactions

/-- `class Chain(BaseModel)`: `length: int`, `blocks: List[Block]`. -/
structure Chain where
  length : Int
  blocks : List Block
deriving DecidableEq, Repr

/-- `Chain.last_block`: `self.blocks[-1]`, an `IndexError` on an empty chain. -/
def Chain.last_block (c : Chain) : Except PyErr Block :=
  match c.blocks.getLast? with
  | some b => .ok b
  | none => .error .indexError

/-- `Chain.validate_proof(prev_proof, current_proof, prev_hash)`: SHA-256 of
the f-string `f'{prev_proof}{current_proof}{prev_hash}'` must start with
`"0000"` (Python slice `guess_hash[:4]`, i.e. the first four characters).
The proofs arrive as `Optional[int]` at both call sites. -/
def Chain.validate_proof (prev_proof current_proof : Option Int)
    (prev_hash : String) : Bool :=
  let guess := pyOptIntStr prev_proof ++ pyOptIntStr current_proof ++ prev_hash
  let guess_hash := sha256HexStr guess
  guess_hash.data.take 4 == "0000".data

/-- `Chain.proof_of_work`: the loop `proof = 0; while not validate_proof(...):
proof += 1; return proof`. The method reads `last_proof` and `last_hash` from
`self.last_block` (lines 90-91); `mine` below does exactly that. Given that a
satisfying proof exists, the loop's value is the least satisfying number. -/
def Chain.proof_of_work (last_proof : Option Int) (last_hash : String)
    (hex : ∃ p : Nat, Chain.validate_proof last_proof (some (p : Int)) last_hash = true) :
    Nat :=
  Nat.find hex

/-- The same search loop with explicit fuel (for the executable `mine` model):
`powLoop lp lh fuel proof` runs the `while` from counter value `proof` for at
most `fuel` iterations. -/
def powLoop (last_proof : Option Int) (last_hash : String) : Nat → Nat → Option Nat
  | 0, _ => none
  | fuel + 1, proof =>
    if Chain.validate_proof last_proof (some (proof : Int)) last_hash then some proof
    else powLoop last_proof last_hash fuel (proof + 1)

/-- The body of `Chain.validate_chain`'s `for` loop over `self.blocks[1:]`. -/
def validateChainLoop (prev : Block) : List Block → Bool
  | [] => true
  | b :: rest =>
    if b.previous_hash != prev.hash then false
    else if !Chain.validate_proof prev.proof b.proof prev.hash then false
    else validateChainLoop b rest

/-- `Chain.validate_chain`: `prev_block = self.blocks[0]` raises `IndexError`
on an empty chain; otherwise walk the adjacent pairs. -/
def Chain.validate_chain (c : Chain) : Except PyErr Bool :=
  match c.blocks with
  | [] => .error .indexError
  | b :: rest => .ok (validateChainLoop b rest)

/-! ## HTTP read accessors (`blocks_by_id`, `transactions_by_id`) -/

/-- `GET /api/chain/blocks/{id}`: respond 404 when `id > len(CHAIN.blocks)`,
otherwise return `CHAIN.blocks[id]` (which can itself raise `IndexError`). -/
def blocks_by_id (c : Chain) (id : Int) : Except PyErr Block :=
  if id > (c.blocks.length : Int) then .error (.http 404 "Block not found")
  else pyIndex c.blocks id

/-- `GET /api/chain/blocks/{id}/transactions`: same guard, then
`CHAIN.blocks[id].transactions`. -/
def transactions_by_id (c : Chain) (id : Int) : Except PyErr (List Transaction) :=
  if id > (c.blocks.length : Int) then .error (.http 404 "Block not found")
  else
    match pyIndex c.blocks id with
    | .ok b => .ok b.transactions
    | .error e => .error e

/-! ## The `mine` endpoint -/

/-- The module globals of `src/app.py` that `mine` reads and writes. -/
structure ServerState where
  WALLETS : Wallets
  CHAIN : Chain
  BLOCK : Block
  node_wallet_index : String
deriving DecidableEq, Repr

/-- Outcome of a `mine` request. `fuelOut` marks that the unbounded
proof-of-work `while` loop did not finish within the modelling fuel. -/
inductive MineOutcome where
  | ok (b : Block)
  | err (e : PyErr)
  | fuelOut
deriving DecidableEq, Repr

/-- `GET /api/mine`: reject an empty pending block with HTTP 204; otherwise
append the reward transaction, close the block against the ledger, solve the
proof-of-work anchored at the chain tail, append, audit the chain, and start
a fresh pending block stamped `now`. Each intermediate state is kept exactly
as the Python globals would be when an exception escapes at that point. -/
def mine (fuel : Nat) (now : String) (st : ServerState) : ServerState × MineOutcome :=
  if st.BLOCK.transactions.isEmpty then
    (st, .err (.http 204 "No transactions in current block"))
  else
    let tax : Transaction :=
      { amount := 1, index := st.BLOCK.length,
        recipient := st.node_wallet_index, sender := "none" }
    let block1 := { st.BLOCK with transactions := st.BLOCK.transactions ++ [tax] }
    match block1.close st.WALLETS with
    | (ws2, some e) => ({ st with WALLETS := ws2, BLOCK := block1 }, .err e)
    | (ws2, none) =>
      match st.CHAIN.last_block with
      | .error e => ({ st with WALLETS := ws2, BLOCK := block1 }, .err e)
      | .ok lastB =>
        match powLoop lastB.proof lastB.hash fuel 0 with
        | none => ({ st with WALLETS := ws2, BLOCK := block1 }, .fuelOut)
        | some p =>
          let block2 := { block1 with proof := some (p : Int) }
          let chain2 : Chain :=
            { length := st.CHAIN.length + 1, blocks := st.CHAIN.blocks ++ [block2] }
          match chain2.validate_chain with
          | .error e =>
            ({ st with WALLETS := ws2, CHAIN := chain2, BLOCK := block2 }, .err e)
          | .ok false =>
            ({ st with WALLETS := ws2, CHAIN := chain2, BLOCK := block2 },
             .err (.http 599 "Chain is not valid"))
          | .ok true =>
            let fresh : Block :=
              { index := chain2.length, length := 0, previous_hash := block2.hash,
                proof := none, timestamp := now, transactions := [] }
            let st2 := { st with WALLETS := ws2, CHAIN := chain2, BLOCK := fresh }
            match chain2.last_block with
            | .ok b => (st2, .ok b)
            | .error e => (st2, .err e)

/-- The proof-validation predicate exactly as the spec words it: concatenate
the canonical text representations of `prevProof`, `currentProof`, `prevHash`
with no separators, SHA-256 digest to lowercase hex, and accept iff the first
4 hex characters of the digest are all the character `0`. -/
def validateProofSpec (prevProof currentProof : Int) (prevHash : String) : Bool :=
  let digest := sha256HexStr (pyIntStr prevProof ++ pyIntStr currentProof ++ prevHash)
  (digest.data.take 4).all (fun c => c == '0')

/-- The adjacency requirement the chain audit enforces on consecutive blocks. -/
def goodLink (prev cur : Block) : Prop :=
  cur.previous_hash = prev.hash ∧
  Chain.validate_proof prev.proof cur.proof prev.hash = true

/-! ## Concrete inputs used by witnesses and counterexamples -/

/-- The spec scenario transaction: 200 from wallet A to wallet B. -/
def txnAB : Transaction := { amount := 200, index := 0, recipient := "B", sender := "A" }

/-- The spec scenario ledger: wallet A at 500, wallet B at 0. -/
def ledgerAB : Wallets :=
  { wallets := [{ index := "A", value := 500 }, { index := "B", value := 0 }], length := 2 }

/-- A pending block holding the scenario transaction. -/
def blockAB : Block :=
  { index := 0, length := 1, previous_hash := "p", proof := none, timestamp := "t",
    transactions := [txnAB] }

/-- A sealed genesis-like block. -/
def singleBlock : Block :=
  { index := 0, length := 0, previous_hash := "0", proof := some 100, timestamp := "t0",
    transactions := [] }

/-- A one-block chain. -/
def oneBlockChain : Chain := { length := 1, blocks := [singleBlock] }

/-- A three-block chain (hash linkage irrelevant to the indexing claims). -/
def chain3 : Chain :=
  { length := 3,
    blocks := [
      { index := 0, length := 0, previous_hash := "a", proof := some 1, timestamp := "t0",
        transactions := [] },
      { index := 1, length := 0, previous_hash := "b", proof := some 2, timestamp := "t1",
        transactions := [] },
      { index := 2, length := 0, previous_hash := "c", proof := some 3, timestamp := "t2",
        transactions := [] }] }

/-- A server whose pending block holds no transactions. -/
def idleServer : ServerState :=
  { WALLETS := { wallets := [], length := 0 },
    CHAIN := oneBlockChain,
    BLOCK := { index := 1, length := 0, previous_hash := "ph", proof := none,
               timestamp := "t1", transactions := [] },
    node_wallet_index := "node" }

/-- A one-wallet ledger under id K. -/
def ledgerK : Wallets := { wallets := [{ index := "K", value := 7 }], length := 1 }

/-- A self-transfer on wallet K. -/
def selfTxn : Transaction := { amount := 7, index := 0, recipient := "K", sender := "K" }

/-! ## Ledger lemmas -/

/-- Sum of the balances of a wallet list. -/
def listTotal (l : List Wallet) : Int := (l.map Wallet.value).sum

/-- Sum of all balances in the ledger. -/
def Wallets.total (ws : Wallets) : Int := listTotal ws.wallets

theorem find?_wallet_cons (x : Wallet) (xs : List Wallet) (key : String) :
    (x :: xs).find? (fun w => w.index == key)
      = if x.index == key then some x else xs.find? (fun w => w.index == key) := by
  cases hx : x.index == key <;> simp [List.find?_cons, hx]

theorem updateFirst_cons (x : Wallet) (xs : List Wallet) (key : String) (f : Int → Int) :
    updateFirst (x :: xs) key f
      = if x.index == key then { x with value := f x.value } :: xs
        else x :: updateFirst xs key f := rfl

theorem updateFirst_find?_self (l : List Wallet) (key : String) (f : Int → Int)
    (w : Wallet) (h : l.find? (fun x => x.index == key) = some w) :
    (updateFirst l key f).find? (fun x => x.index == key)
      = some { w with value := f w.value } := by
  induction l with
  | nil => simp [List.find?] at h
  | cons x xs ih =>
    rw [find?_wallet_cons] at h
    rw [updateFirst_cons]
    cases hx : x.index == key with
    | true =>
      rw [hx] at h
      simp only [if_true, reduceIte] at h
      injection h with h
      subst h
      simp only [reduceIte]
      rw [find?_wallet_cons]
      simp [hx]
    | false =>
      rw [hx] at h
      simp only [Bool.false_eq_true, if_false, reduceIte] at h
      simp only [Bool.false_eq_true, reduceIte]
      rw [find?_wallet_cons, hx]
      simp only [Bool.false_eq_true, if_false, reduceIte]
      exact ih h

theorem updateFirst_find?_other (l : List Wallet) (key k : String) (f : Int → Int)
    (hne : k ≠ key) :
    (updateFirst l key f).find? (fun x => x.index == k)
      = l.find? (fun x => x.index == k) := by
  induction l with
  | nil => simp [updateFirst]
  | cons x xs ih =>
    rw [updateFirst_cons]
    cases hx : x.index == key with
    | true =>
      have hxkey : x.index = key := by simpa using hx
      have hxk : (x.index == k) = false := by
        simp [hxkey]
        exact fun hk => hne hk.symm
      simp only [if_true, reduceIte]
      rw [find?_wallet_cons, find?_wallet_cons, hxk]
      simp [hxk]
    | false =>
      simp only [Bool.false_eq_true, if_false, reduceIte]
      rw [find?_wallet_cons, find?_wallet_cons]
      cases hxk : x.index == k with
      | true => simp [hxk]
      | false => simpa [hxk] using ih

theorem updateFirst_not_found (l : List Wallet) (key : String) (f : Int → Int)
    (h : l.find? (fun x => x.index == key) = none) :
    updateFirst l key f = l := by
  induction l with
  | nil => rfl
  | cons x xs ih =>
    rw [find?_wallet_cons] at h
    rw [updateFirst_cons]
    cases hx : x.index == key with
    | true => rw [hx] at h; simp at h
    | false =>
      rw [hx] at h
      simp only [Bool.false_eq_true, if_false, reduceIte] at h ⊢
      rw [ih h]

theorem updateFirst_find?_isSome (l : List Wallet) (key k : String) (f : Int → Int) :
    ((updateFirst l key f).find? (fun x => x.index == k)).isSome
      = (l.find? (fun x => x.index == k)).isSome := by
  by_cases hk : k = key
  · subst hk
    cases h : l.find? (fun x => x.index == k) with
    | none => rw [updateFirst_not_found l k f h, h]
    | some w => rw [updateFirst_find?_self l k f w h]; rfl
  · rw [updateFirst_find?_other l key k f hk]

theorem updateFirst_total (l : List Wallet) (key : String) (f : Int → Int)
    (w : Wallet) (h : l.find? (fun x => x.index == key) = some w) :
    listTotal (updateFirst l key f) = listTotal l - w.value + f w.value := by
  induction l with
  | nil => simp [List.find?] at h
  | cons x xs ih =>
    rw [find?_wallet_cons] at h
    rw [updateFirst_cons]
    cases hx : x.index == key with
    | true =>
      rw [hx] at h
      simp only [if_true, reduceIte] at h
      injection h with h
      subst h
      simp only [if_true, reduceIte, listTotal, List.map_cons, List.sum_cons]
      ring
    | false =>
      rw [hx] at h
      simp only [Bool.false_eq_true, if_false, reduceIte] at h ⊢
      have hxs := ih h
      simp only [listTotal, List.map_cons, List.sum_cons] at hxs ⊢
      rw [hxs]
      ring

theorem find?_append_of_none {p : Wallet → Bool} (l1 l2 : List Wallet)
    (h : l1.find? p = none) : (l1 ++ l2).find? p = l2.find? p := by
  induction l1 with
  | nil => rfl
  | cons x xs ih =>
    rw [List.find?_cons] at h
    cases hx : p x with
    | true => rw [hx] at h; simp at h
    | false =>
      rw [hx] at h
      simp only at h
      rw [List.cons_append, List.find?_cons, hx]
      exact ih h

theorem commit_find?_isSome (t : Transaction) (ws : Wallets) (k : String) :
    (((t.commit ws).1).find_by_index k).isSome = (ws.find_by_index k).isSome := by
  unfold Transaction.commit
  cases hs : ws.find_by_index t.sender with
  | none => rfl
  | some sw =>
    cases hr : ws.find_by_index t.recipient with
    | none =>
      simp only [Wallets.find_by_index]
      exact updateFirst_find?_isSome ws.wallets t.sender k _
    | some rw2 =>
      simp only [Wallets.find_by_index]
      rw [updateFirst_find?_isSome _ t.recipient k _,
        updateFirst_find?_isSome _ t.sender k _]

theorem commit_ok_of_isSome (t : Transaction) (ws : Wallets)
    (hs : (ws.find_by_index t.sender).isSome = true)
    (hr : (ws.find_by_index t.recipient).isSome = true) :
    (t.commit ws).2 = none ∧ (t.commit ws).1.total = ws.total := by
  obtain ⟨sw, hsw⟩ := Option.isSome_iff_exists.mp hs
  obtain ⟨rw2, hrw⟩ := Option.isSome_iff_exists.mp hr
  unfold Transaction.commit
  rw [hsw, hrw]
  refine ⟨rfl, ?_⟩
  simp only [Wallets.total]
  have hs1 : ws.wallets.find? (fun x => x.index == t.sender) = some sw := hsw
  have south := updateFirst_total ws.wallets t.sender (fun v => v - t.amount) sw hs1
  have hr1 : (((updateFirst ws.wallets t.sender (fun v => v - t.amount)).find?
      (fun x => x.index == t.recipient)).isSome) = true := by
    rw [updateFirst_find?_isSome]
    exact hr
  obtain ⟨rw3, hrw3⟩ := Option.isSome_iff_exists.mp hr1
  have north := updateFirst_total (updateFirst ws.wallets t.sender (fun v => v - t.amount))
    t.recipient (fun v => v + t.amount) rw3 hrw3
  rw [north, south]
  ring

theorem closeLoop_conserves (ts : List Transaction) (ws : Wallets)
    (h : ∀ t ∈ ts, (ws.find_by_index t.sender).isSome = true ∧
        (ws.find_by_index t.recipient).isSome = true) :
    (closeLoop ws ts).2 = none ∧ (closeLoop ws ts).1.total = ws.total := by
  induction ts generalizing ws with
  | nil => exact ⟨rfl, rfl⟩
  | cons t rest ih =>
    obtain ⟨hts, htr⟩ := h t (List.mem_cons_self t rest)
    obtain ⟨hok, htot⟩ := commit_ok_of_isSome t ws hts htr
    have hrest : ∀ u ∈ rest, (((t.commit ws).1).find_by_index u.sender).isSome = true ∧
        (((t.commit ws).1).find_by_index u.recipient).isSome = true := by
      intro u hu
      obtain ⟨h1, h2⟩ := h u (List.mem_cons_of_mem t hu)
      rw [commit_find?_isSome, commit_find?_isSome]
      exact ⟨h1, h2⟩
    obtain ⟨hok2, htot2⟩ := ih (t.commit ws).1 hrest
    cases hc : t.commit ws with
    | mk ws2 res =>
      cases res with
      | some e => rw [hc] at hok; exact absurd hok (by simp)
      | none =>
        constructor
        · simp only [closeLoop, hc]
          rw [hc] at hok2
          exact hok2
        · simp only [closeLoop, hc]
          rw [hc] at htot2 htot
          simp only at htot2 htot
          rw [htot2, htot]

theorem updateFirst_sub_add (l : List Wallet) (key : String) (a : Int) :
    updateFirst (updateFirst l key (fun v => v - a)) key (fun v => v + a) = l := by
  induction l with
  | nil => rfl
  | cons x xs ih =>
    rw [updateFirst_cons]
    cases hx : x.index == key with
    | true =>
      simp only [if_true, reduceIte]
      rw [updateFirst_cons]
      simp only [hx, if_true, reduceIte]
      have : x.value - a + a = x.value := by ring
      rw [this]
    | false =>
      simp only [Bool.false_eq_true, if_false, reduceIte]
      rw [updateFirst_cons]
      simp only [hx, Bool.false_eq_true, if_false, reduceIte]
      rw [ih]

/-! ## Digest shape and proof-validation characterization -/

theorem sha256HexChars_length (msg : List Nat) : (sha256HexChars msg).length = 64 := by
  simp [sha256HexChars, wordHexChars]

theorem take4_all_zero (l : List Char) (hlen : l.length = 64) :
    (l.take 4 == "0000".data) = (l.take 4).all (fun c => c == '0') := by
  rcases l with _ | ⟨c0, l⟩
  · simp at hlen
  rcases l with _ | ⟨c1, l⟩
  · simp at hlen
  rcases l with _ | ⟨c2, l⟩
  · simp at hlen
  rcases l with _ | ⟨c3, l⟩
  · simp at hlen
  have ht : (c0 :: c1 :: c2 :: c3 :: l).take 4 = [c0, c1, c2, c3] := rfl
  have hdata : ("0000".data : List Char) = ['0', '0', '0', '0'] := rfl
  rw [ht, Bool.eq_iff_iff, beq_iff_eq, hdata]
  simp [and_assoc]

theorem validateChainLoop_eq_true (b : Block) (rest : List Block) :
    validateChainLoop b rest = true ↔ List.Chain' goodLink (b :: rest) := by
  induction rest generalizing b with
  | nil => simp [validateChainLoop]
  | cons x xs ih =>
    rw [List.chain'_cons]
    simp only [validateChainLoop]
    cases hb : x.previous_hash == b.hash with
    | false =>
      have hne : x.previous_hash ≠ b.hash := by simpa using hb
      simp [bne, hb, goodLink, hne]
    | true =>
      have heq : x.previous_hash = b.hash := by simpa using hb
      cases h2 : Chain.validate_proof b.proof x.proof b.hash with
      | false => simp [bne, hb, h2, goodLink]
      | true => simp [bne, hb, h2, goodLink, ih, heq]

/-! ## Claims -/

/-- C1: for every `(prevProof, prevHash)` for which a satisfying proof exists,
the mining search returns the first (minimal) non-negative integer `p` with
`validate_proof prevProof p prevHash = true`; consequently the mined proof
validates. -/
theorem proof_of_work_returns_first (lp : Option Int) (lh : String)
    (hex : ∃ p : Nat, Chain.validate_proof lp (some (p : Int)) lh = true) :
    Chain.validate_proof lp (some ((Chain.proof_of_work lp lh hex : Nat) : Int)) lh = true ∧
    ∀ q : Nat, q < Chain.proof_of_work lp lh hex →
      Chain.validate_proof lp (some (q : Int)) lh = false := by
  refine ⟨Nat.find_spec hex, fun q hq => ?_⟩
  simpa using Nat.find_min hex hq

/-- A satisfying proof exists for the spec scenario `(100, "abc")`:
24356 works. -/
theorem powScenarioExists :
    ∃ p : Nat, Chain.validate_proof (some 100) (some (p : Int)) "abc" = true :=
  ⟨24356, by rfl⟩

/-- Witness for C1 at the spec scenario `(100, "abc")`. -/
theorem proof_of_work_returns_first_witness :
    Chain.validate_proof (some 100)
      (some ((Chain.proof_of_work (some 100) "abc" powScenarioExists : Nat) : Int))
      "abc" = true ∧
    ∀ q : Nat, q < Chain.proof_of_work (some 100) "abc" powScenarioExists →
      Chain.validate_proof (some 100) (some (q : Int)) "abc" = false :=
  proof_of_work_returns_first (some 100) "abc" powScenarioExists

/-- C2: `validate_proof` concatenates the canonical text representations of
the two proofs and the hash with no separators, SHA-256 digests to lowercase
hex, and accepts iff the first 4 hex characters are all the character 0 —
the code's `guess_hash[:4] == "0000"` agrees with the spec's wording for
every integer input because the digest always has 64 characters. -/
theorem validate_proof_matches_spec (p c : Int) (hs : String) :
    Chain.validate_proof (some p) (some c) hs = validateProofSpec p c hs := by
  have hlen : ((sha256HexStr (pyIntStr p ++ pyIntStr c ++ hs)).data).length = 64 :=
    sha256HexChars_length _
  exact take4_all_zero _ hlen

/-- C3 counterexample: on a chain with zero blocks `validate_chain` raises
`IndexError` (from `self.blocks[0]`) instead of returning true as claimed. -/
theorem validate_chain_empty_not_true :
    Chain.validate_chain { length := 0, blocks := [] } = .error PyErr.indexError ∧
    Chain.validate_chain { length := 0, blocks := [] } ≠ .ok true :=
  ⟨rfl, by simp [Chain.validate_chain]⟩

/-- C3 amended: on a zero-block chain `validate_chain` raises `IndexError`;
on every chain with at least one block it returns a boolean, true exactly when
every adjacent pair passes both the hash-linkage check and the proof
validation (hence false as soon as some pair fails either check, and true for
a single-block chain). -/
theorem validate_chain_characterization (c : Chain) :
    (c.blocks = [] → c.validate_chain = .error PyErr.indexError) ∧
    (c.blocks ≠ [] →
      (c.validate_chain = .ok true ↔ List.Chain' goodLink c.blocks) ∧
      (c.validate_chain = .ok true ∨ c.validate_chain = .ok false)) := by
  obtain ⟨len, blocks⟩ := c
  cases blocks with
  | nil => exact ⟨fun _ => rfl, fun hne => absurd rfl hne⟩
  | cons b rest =>
    constructor
    · intro h
      exact absurd h (by simp)
    · intro _
      have hvc : Chain.validate_chain ⟨len, b :: rest⟩
          = .ok (validateChainLoop b rest) := rfl
      constructor
      · rw [hvc]
        constructor
        · intro h
          injection h with h
          exact (validateChainLoop_eq_true b rest).mp h
        · intro h
          have hloop := (validateChainLoop_eq_true b rest).mpr h
          rw [hloop]
      · rw [hvc]
        cases validateChainLoop b rest
        · right; rfl
        · left; rfl

/-- Witness for the amended C3: the empty chain raises, and a one-block chain
satisfies the pairwise characterization. -/
theorem validate_chain_characterization_witness :
    Chain.validate_chain { length := 0, blocks := [] } = .error PyErr.indexError ∧
    (Chain.validate_chain oneBlockChain = .ok true ↔
      List.Chain' goodLink oneBlockChain.blocks) :=
  ⟨(validate_chain_characterization { length := 0, blocks := [] }).1 rfl,
   ((validate_chain_characterization oneBlockChain).2 (by simp [oneBlockChain])).1⟩

/-- C4 counterexample: with the sender (and recipient) absent from the
ledger, `commit` fails by dereferencing `None` — an `AttributeError` — not
with the `LookupError` the claim states. -/
theorem commit_missing_wallet_attribute_error :
    (Transaction.commit txnAB { wallets := [], length := 0 }).2
      = some PyErr.attributeError ∧
    some PyErr.attributeError ≠ some PyErr.lookupError :=
  ⟨rfl, by simp⟩

/-- C4 amended: `commit` looks both wallets up and, when either is absent,
fails with `AttributeError` (a `None` dereference, not `LookupError`); when
both are present (and distinct) it debits the sender by `amount`, credits the
recipient by `amount`, and changes no other wallet. -/
theorem commit_updates_balances (t : Transaction) (ws : Wallets) (sw rw2 : Wallet)
    (hs : ws.find_by_index t.sender = some sw)
    (hr : ws.find_by_index t.recipient = some rw2)
    (hne : t.sender ≠ t.recipient) :
    (t.commit ws).2 = none ∧
    (t.commit ws).1.find_by_index t.sender
      = some { sw with value := sw.value - t.amount } ∧
    (t.commit ws).1.find_by_index t.recipient
      = some { rw2 with value := rw2.value + t.amount } ∧
    (∀ k, k ≠ t.sender → k ≠ t.recipient →
      (t.commit ws).1.find_by_index k = ws.find_by_index k) ∧
    (∀ ws2 : Wallets,
      (ws2.find_by_index t.sender = none ∨ ws2.find_by_index t.recipient = none) →
      (t.commit ws2).2 = some PyErr.attributeError) := by
  have hcommit : t.commit ws =
      ({ ws with wallets := updateFirst (updateFirst ws.wallets t.sender (fun v => v - t.amount)) t.recipient (fun v => v + t.amount) }, none) := by
    unfold Transaction.commit
    rw [hs, hr]
  refine ⟨by rw [hcommit], ?_, ?_, ?_, ?_⟩
  · rw [hcommit]
    simp only [Wallets.find_by_index]
    rw [updateFirst_find?_other _ t.recipient t.sender _ hne]
    exact updateFirst_find?_self ws.wallets t.sender _ sw hs
  · rw [hcommit]
    simp only [Wallets.find_by_index]
    have hr2 : (updateFirst ws.wallets t.sender (fun v => v - t.amount)).find?
        (fun x => x.index == t.recipient) = some rw2 := by
      rw [updateFirst_find?_other _ t.sender t.recipient _ (fun hh => hne hh.symm)]
      exact hr
    exact updateFirst_find?_self _ t.recipient _ rw2 hr2
  · intro k hk1 hk2
    rw [hcommit]
    simp only [Wallets.find_by_index]
    rw [updateFirst_find?_other _ t.recipient k _ hk2,
      updateFirst_find?_other _ t.sender k _ hk1]
  · intro ws2 habs
    unfold Transaction.commit
    cases hs2 : ws2.find_by_index t.sender with
    | none => rfl
    | some x =>
      cases hr2 : ws2.find_by_index t.recipient with
      | none => rfl
      | some y =>
        rcases habs with h | h
        · rw [hs2] at h
          exact absurd h (by simp)
        · rw [hr2] at h
          exact absurd h (by simp)

/-- Witness for the amended C4 at the spec scenario: A at 500, B at 0,
committing 200 from A to B yields A at 300 and B at 200, other lookups
unchanged; on an empty ledger the same transaction raises AttributeError. -/
theorem commit_updates_balances_witness :
    (txnAB.commit ledgerAB).2 = none ∧
    (txnAB.commit ledgerAB).1.find_by_index "A" = some { index := "A", value := 300 } ∧
    (txnAB.commit ledgerAB).1.find_by_index "B" = some { index := "B", value := 200 } ∧
    (txnAB.commit ledgerAB).1.find_by_index "C" = ledgerAB.find_by_index "C" ∧
    (txnAB.commit { wallets := [], length := 0 }).2 = some PyErr.attributeError := by
  obtain ⟨h1, h2, h3, h4, h5⟩ :=
    commit_updates_balances txnAB ledgerAB
      { index := "A", value := 500 } { index := "B", value := 0 }
      (by rfl) (by rfl) (by decide)
  exact ⟨h1, h2, h3, h4 "C" (by decide) (by decide),
    h5 { wallets := [], length := 0 } (Or.inl rfl)⟩

/-- C5: closing a block all of whose transactions have both sender and
recipient present in the ledger commits cleanly and leaves the sum of all
wallet balances unchanged — each debit equals the matching credit. -/
theorem close_conserves_total (b : Block) (ws : Wallets)
    (h : ∀ t ∈ b.transactions, (ws.find_by_index t.sender).isSome = true ∧
        (ws.find_by_index t.recipient).isSome = true) :
    (b.close ws).2 = none ∧ (b.close ws).1.total = ws.total :=
  closeLoop_conserves b.transactions ws h

/-- Witness for C5 on the scenario block and ledger. -/
theorem close_conserves_total_witness :
    (blockAB.close ledgerAB).2 = none ∧ (blockAB.close ledgerAB).1.total = ledgerAB.total :=
  close_conserves_total blockAB ledgerAB (by decide)

/-- C6: a `mine` request against an empty pending block is rejected with the
empty-block error (HTTP 204, detail "No transactions in current block") and
the entire server state — chain, wallet ledger, pending block — is returned
unchanged: nothing is appended, no balance moves, no proof is set. -/
theorem mine_empty_rejected (fuel : Nat) (now : String) (st : ServerState)
    (h : st.BLOCK.transactions = []) :
    mine fuel now st = (st, .err (.http 204 "No transactions in current block")) := by
  unfold mine
  rw [h]
  rfl

/-- Witness for C6 on a concrete idle server. -/
theorem mine_empty_rejected_witness :
    mine 3 "t2" idleServer
      = (idleServer, .err (.http 204 "No transactions in current block")) :=
  mine_empty_rejected 3 "t2" idleServer rfl

/-- C7 (bug evidence): on a 3-block chain the claimed scenario holds at index
99 (404 "Block not found"), but the boundary index 3 slips past the
`id > len(blocks)` guard — which was clearly meant to be `>=` — and raises a
bare `IndexError` instead of the NotFoundError the claim asserts for every
out-of-range index; `transactions_by_id` shares the same slip. -/
theorem blocks_by_id_boundary_index_error :
    blocks_by_id chain3 99 = .error (.http 404 "Block not found") ∧
    transactions_by_id chain3 99 = .error (.http 404 "Block not found") ∧
    blocks_by_id chain3 3 = .error PyErr.indexError ∧
    transactions_by_id chain3 3 = .error PyErr.indexError :=
  ⟨rfl, rfl, rfl, rfl⟩

/-- C8: `last_block` fails on a chain with zero blocks (the `IndexError` from
`blocks[-1]`, the failure the spec names EmptyChainError) and returns the
final block of every non-empty chain. -/
theorem last_block_empty_fails (c : Chain) :
    (c.blocks = [] → c.last_block = .error PyErr.indexError) ∧
    ∀ h : c.blocks ≠ [], c.last_block = .ok (c.blocks.getLast h) := by
  constructor
  · intro h
    unfold Chain.last_block
    rw [h]
    rfl
  · intro h
    unfold Chain.last_block
    rw [List.getLast?_eq_getLast c.blocks h]

/-- Witness for C8: the empty chain fails, a one-block chain returns its
block. -/
theorem last_block_empty_fails_witness :
    Chain.last_block { length := 0, blocks := [] } = .error PyErr.indexError ∧
    Chain.last_block oneBlockChain = .ok singleBlock :=
  ⟨(last_block_empty_fails { length := 0, blocks := [] }).1 rfl,
   (last_block_empty_fails oneBlockChain).2 (by simp [oneBlockChain])⟩

/-- C9: `add_wallet` inserts only when the id is absent and never overwrites:
if the ledger already holds a wallet under id `k`, adding any wallet whose id
is `k` is a no-op, and a second `add_wallet` with the same id directly after a
first is always a no-op regardless of the value passed. -/
theorem add_wallet_idempotent (ws : Wallets) (k : String) (w v : Wallet)
    (hw : w.index = k) (hv : v.index = k) :
    (ws.find_by_index k ≠ none → ws.add_wallet w = ws) ∧
    (ws.add_wallet w).add_wallet v = ws.add_wallet w := by
  have hnoop : ∀ (ws0 : Wallets) (u : Wallet), u.index = k →
      ws0.find_by_index k ≠ none → ws0.add_wallet u = ws0 := by
    intro ws0 u hu hne
    unfold Wallets.add_wallet
    rw [hu]
    cases hf : ws0.find_by_index k with
    | none => exact absurd hf hne
    | some x => rfl
  refine ⟨hnoop ws w hw, ?_⟩
  cases hf : ws.find_by_index k with
  | some x =>
    have h1 : ws.add_wallet w = ws := hnoop ws w hw (by rw [hf]; simp)
    rw [h1]
    exact hnoop ws v hv (by rw [hf]; simp)
  | none =>
    have hadd : ws.add_wallet w
        = { wallets := ws.wallets ++ [w], length := ws.length + 1 } := by
      unfold Wallets.add_wallet
      rw [hw, hf]
    have hfound : (ws.add_wallet w).find_by_index k ≠ none := by
      rw [hadd]
      show (ws.wallets ++ [w]).find? (fun x => x.index == k) ≠ none
      rw [find?_append_of_none ws.wallets [w] hf, find?_wallet_cons, hw]
      simp
    exact hnoop (ws.add_wallet w) v hv hfound

/-- Witness for C9 on a one-wallet ledger: adding under the existing id twice
with two different values changes nothing. -/
theorem add_wallet_idempotent_witness :
    ledgerK.add_wallet { index := "K", value := 99 } = ledgerK ∧
    (ledgerK.add_wallet { index := "K", value := 99 }).add_wallet
        { index := "K", value := 123 }
      = ledgerK.add_wallet { index := "K", value := 99 } := by
  obtain ⟨h1, h2⟩ := add_wallet_idempotent ledgerK "K"
    { index := "K", value := 99 } { index := "K", value := 123 } rfl rfl
  exact ⟨h1 (by decide), h2⟩

/-- C10: a self-transfer — sender and recipient the same present wallet id —
leaves that wallet and the whole ledger unchanged for every amount: the debit
and the credit land on the same wallet record and cancel. -/
theorem commit_self_transfer (t : Transaction) (ws : Wallets) (w : Wallet)
    (hself : t.recipient = t.sender) (hfind : ws.find_by_index t.sender = some w) :
    t.commit ws = (ws, none) := by
  unfold Transaction.commit
  rw [hself, hfind]
  show ({ ws with wallets := updateFirst (updateFirst ws.wallets t.sender (fun v => v - t.amount)) t.sender (fun v => v + t.amount) }, none) = (ws, none)
  rw [updateFirst_sub_add]

/-- Witness for C10: a self-transfer of 7 on wallet K leaves the ledger as it
was. -/
theorem commit_self_transfer_witness : selfTxn.commit ledgerK = (ledgerK, none) :=
  commit_self_transfer selfTxn ledgerK { index := "K", value := 7 } rfl rfl
